import Mathlib

/-!
# Verification of the LilaGame Tic-Tac-Toe server core

Shallow embedding of the Go server core of the LilaGame repository:
the per-match state machine in `match.go` (`TTTMatch`, `MatchInit`,
`MatchJoinAttempt`, `MatchLeave`, `MatchTerminate`, `handleMove`,
`checkWinner`, `updateLeaderboard`, `sendError`) and the matchmaking
queue in `backend/matchmaking.go` (`startMatchmakingRPC`,
`stopMatchmakingRPC`).

Side effects on external collaborators (the dispatcher broadcasts and
the leaderboard/score writes) are reified as an explicit list of
`Event` values returned next to the updated state, so that "which
messages were emitted, to whom" is part of the embedded semantics.
Go maps keyed by user id are embedded as association lists with
map-style insert/delete; Go `int` fields that the code compares
against 0 are embedded as `Int`.
-/

namespace LilaGame

/-- Source constant `PlayerX = "X"` (main.go). -/
def PlayerX : String := "X"

/-- Source constant `PlayerO = "O"` (main.go). -/
def PlayerO : String := "O"

/-- Source constant `Empty = ""` (main.go): the empty cell marker. -/
def Empty : String := ""

/-- Source constant `GameModeClassic = "classic"` (main.go). -/
def GameModeClassic : String := "classic"

/-- Source constant `GameModeAdvanced = "advanced"` (main.go). -/
def GameModeAdvanced : String := "advanced"

/-- Source constant `GameStateWaiting = "waiting"` (main.go). -/
def GameStateWaiting : String := "waiting"

/-- Source constant `GameStatePlaying = "playing"` (main.go). -/
def GameStatePlaying : String := "playing"

/-- Source constant `GameStateFinished = "finished"` (main.go). -/
def GameStateFinished : String := "finished"

/-- The board `[][]string` of match.go: a list of rows of cells. -/
abbrev Board := List (List String)

/-- Read `board[i][j]`; out-of-range reads default to `Empty`
(the code only reads in range, under `WF` below). -/
def cell (b : Board) (i j : Nat) : String :=
  ((b.getD i []).getD j Empty)

/-- Write `board[i][j] = v` (match.go line `match.Board[row][col] = playerSymbol`). -/
def setCell (b : Board) (i j : Nat) (v : String) : Board :=
  b.set i ((b.getD i []).set j v)

/-- Map-style insert into an association list, the embedding of the Go
map assignment `m[k] = v`: replaces the value when the key is present,
appends otherwise. -/
def mapInsert (l : List (String × String)) (k v : String) : List (String × String) :=
  if l.any (fun p => p.1 == k) then
    l.map (fun p => if p.1 == k then (k, v) else p)
  else
    l ++ [(k, v)]

/-- Map-style lookup, the embedding of the Go map read `v, ok := m[k]`. -/
def lookup (l : List (String × String)) (k : String) : Option String :=
  (l.find? (fun p => p.1 == k)).map (fun p => p.2)

/-- Map-style delete, the embedding of the Go `delete(m, k)`. -/
def mapDelete (l : List (String × String)) (k : String) : List (String × String) :=
  l.filter (fun p => p.1 != k)

/-- `MoveData` of main.go: `Row`, `Col` are Go `int`s (may be negative). -/
structure MoveData where
  row : Int
  col : Int
deriving DecidableEq

/-- `StateData` of main.go: the full state snapshot broadcast to clients. -/
structure StateData where
  board : Board
  turn : String
  winner : String
  size : Nat
  mode : String
  players : List (String × String)
deriving DecidableEq

/-- Per-player terminal outcome as classified by `updateLeaderboard`
(match.go): win scores +10, draw +1, loss -5. -/
inductive Outcome
  | win
  | draw
  | loss
deriving DecidableEq

/-- The score delta `updateLeaderboard` passes to the leaderboard write. -/
def scoreFor : Outcome → Int
  | Outcome.win => 10
  | Outcome.draw => 1
  | Outcome.loss => -5

/-- The outcome classification inside `updateLeaderboard`'s loop:
`Winner == symbol` is a win, else `Winner == ""` is a draw, else a loss. -/
def outcomeFor (winner symbol : String) : Outcome :=
  if winner = symbol then Outcome.win
  else if winner = Empty then Outcome.draw
  else Outcome.loss

/-- Observable effects of the match handler on its collaborators.
A `target` of `none` embeds a `BroadcastMessage` with `nil` presences,
i.e. delivery to every participant of the match. -/
inductive Event
  | errorMsg (msg : String) (target : Option (List String))
  | stateMsg (st : StateData) (target : Option (List String))
  | report (userID : String) (outcome : Outcome)
deriving DecidableEq

/-- `sendError` (match.go): broadcasts an `ErrorData{Msg: message}` with
`nil` presences, i.e. to all players of the match. -/
def sendError (msg : String) : Event :=
  Event.errorMsg msg none

/-- The `TTTMatch` struct of match.go (`ID` and `CreatedAt` carry no
game logic and are omitted; `Players` is a Go map userID -> symbol). -/
structure TTTMatch where
  mode : String
  size : Nat
  board : Board
  turn : String
  winner : String
  state : String
  players : List (String × String)
  moveCount : Nat
deriving DecidableEq

/-- The `StateData` snapshot `handleMove`/`MatchJoin` build from a match. -/
def stateOf (m : TTTMatch) : StateData :=
  { board := m.board, turn := m.turn, winner := m.winner,
    size := m.size, mode := m.mode, players := m.players }

/-- `MatchInit` (match.go): mode defaults to classic, size is 3 unless
the mode is advanced (then 5); empty board, turn X, waiting state. -/
def matchInit (modeParam : Option String) : TTTMatch :=
  let mode := modeParam.getD GameModeClassic
  let size := if mode = GameModeAdvanced then 5 else 3
  { mode := mode, size := size,
    board := List.replicate size (List.replicate size Empty),
    turn := PlayerX, winner := Empty, state := GameStateWaiting,
    players := [], moveCount := 0 }

/-- `MatchJoinAttempt` (match.go): reject when full or finished,
otherwise assign X to the first joiner and O to the second, and move to
the playing state once two players are present. -/
def matchJoinAttempt (m : TTTMatch) (userID : String) : TTTMatch × Bool × String :=
  if m.players.length ≥ 2 then (m, false, "Match is full")
  else if m.state = GameStateFinished then (m, false, "Match is finished")
  else
    let symbol := if m.players.length = 1 then PlayerO else PlayerX
    let m1 : TTTMatch := { m with players := mapInsert m.players userID symbol }
    if m1.players.length = 2 then
      ({ m1 with state := GameStatePlaying }, true, "")
    else (m1, true, "")

/-- `MatchLeave` (match.go): delete the leaving presences from the
players map and, if the game was playing, mark it finished. It emits no
broadcast and no leaderboard write, hence the event list is `[]`. -/
def matchLeave (m : TTTMatch) (leaving : List String) : TTTMatch × List Event :=
  let players1 := leaving.foldl (fun ps u => mapDelete ps u) m.players
  let m1 : TTTMatch := { m with players := players1 }
  if m1.state = GameStatePlaying then
    ({ m1 with state := GameStateFinished }, [])
  else (m1, [])

/-- The per-player reports produced by one call to `updateLeaderboard`
(match.go): one leaderboard/stats write per entry of the players map,
classified through `outcomeFor`. -/
def updateLeaderboardEvents (m : TTTMatch) : List Event :=
  m.players.map (fun p => Event.report p.1 (outcomeFor m.winner p.2))

/-- `MatchTerminate` (match.go): calls `updateLeaderboard` again iff the
match is finished with a nonempty winner. -/
def matchTerminate (m : TTTMatch) : TTTMatch × List Event :=
  if m.state = GameStateFinished ∧ m.winner ≠ Empty then
    (m, updateLeaderboardEvents m)
  else (m, [])

/-- One full-line scan of `checkWinner` (match.go): `pos k` is the cell
visited at loop index `k`; the head cell `pos 0` must be nonempty and
every later cell on the line must equal it. Each of the four Go loops
(row, column, main diagonal, anti-diagonal) is an instance. -/
def lineWinner (b : Board) (size : Nat) (pos : Nat → Nat × Nat) : Option String :=
  if cell b (pos 0).1 (pos 0).2 ≠ Empty ∧
      (List.range' 1 (size - 1)).all
        (fun k => cell b (pos k).1 (pos k).2 == cell b (pos 0).1 (pos 0).2) then
    some (cell b (pos 0).1 (pos 0).2)
  else none

/-- Row scan at row `i` (`checkWinner`, first loop). -/
def rowWinnerAt (b : Board) (size i : Nat) : Option String :=
  lineWinner b size (fun j => (i, j))

/-- Column scan at column `j` (`checkWinner`, second loop). -/
def colWinnerAt (b : Board) (size j : Nat) : Option String :=
  lineWinner b size (fun i => (i, j))

/-- Main-diagonal scan (`checkWinner`, third block). -/
def diagWinner (b : Board) (size : Nat) : Option String :=
  lineWinner b size (fun i => (i, i))

/-- Anti-diagonal scan (`checkWinner`, fourth block). -/
def antiDiagWinner (b : Board) (size : Nat) : Option String :=
  lineWinner b size (fun i => (i, size - 1 - i))

/-- `checkWinner` (match.go): scan rows 0..size-1, then columns, then
the main diagonal, then the anti-diagonal; return the first winning
symbol found, `Empty` when there is none. -/
def checkWinner (m : TTTMatch) : String :=
  match (List.range m.size).findSome? (rowWinnerAt m.board m.size) with
  | some w => w
  | none =>
    match (List.range m.size).findSome? (colWinnerAt m.board m.size) with
    | some w => w
    | none =>
      match diagWinner m.board m.size with
      | some w => w
      | none =>
        match antiDiagWinner m.board m.size with
        | some w => w
        | none => Empty

/-- The mutation `handleMove` performs before evaluating the board:
place the symbol at (r, c) and bump `MoveCount`. -/
def postMove (m : TTTMatch) (playerSymbol : String) (r c : Nat) : TTTMatch :=
  { m with board := setCell m.board r c playerSymbol,
           moveCount := m.moveCount + 1 }

/-- The committed part of `handleMove` (match.go, after the validation
cascade): mutate through `postMove`, run `checkWinner`; either record
the win, or record a draw when the board is full, or flip the turn;
`updateLeaderboard` fires inside the two terminal branches, and the
updated state is always broadcast (nil presences) at the end. -/
def moveResult (m : TTTMatch) (playerSymbol : String) (r c : Nat) :
    TTTMatch × List Event :=
  let m1 : TTTMatch := postMove m playerSymbol r c
  let step : TTTMatch × List Event :=
    if checkWinner m1 ≠ Empty then
      let mf : TTTMatch := { m1 with winner := checkWinner m1, state := GameStateFinished }
      (mf, updateLeaderboardEvents mf)
    else if m1.moveCount ≥ m1.size * m1.size then
      let mf : TTTMatch := { m1 with state := GameStateFinished }
      (mf, updateLeaderboardEvents mf)
    else
      ({ m1 with turn := if m1.turn = PlayerX then PlayerO else PlayerX }, [])
  (step.1, step.2 ++ [Event.stateMsg (stateOf step.1) none])

/-- `handleMove` (match.go): the validation cascade (playing state,
parseable payload, in-bounds coordinates, membership, turn, empty cell),
then the committed mutation `moveResult`. An unparseable payload
(failing `json.Unmarshal`) is embedded as `mv = none`. -/
def handleMove (m : TTTMatch) (userID : String) (mv : Option MoveData) :
    TTTMatch × List Event :=
  if m.state ≠ GameStatePlaying then (m, [sendError "Game is not in playing state"])
  else
    match mv with
    | none => (m, [sendError "Invalid move data"])
    | some d =>
      if d.row < 0 ∨ d.row ≥ (m.size : Int) ∨ d.col < 0 ∨ d.col ≥ (m.size : Int) then
        (m, [sendError "Invalid move coordinates"])
      else
        match lookup m.players userID with
        | none => (m, [sendError "Player not in match"])
        | some playerSymbol =>
          if playerSymbol ≠ m.turn then (m, [sendError "Not your turn"])
          else if cell m.board d.row.toNat d.col.toNat ≠ Empty then
            (m, [sendError "Cell already occupied"])
          else
            moveResult m playerSymbol d.row.toNat d.col.toNat

/-- Fold `handleMove` over a list of (player, move) messages, collecting
the emitted events, as `MatchLoop` does for a batch of MOVE messages. -/
def playMoves : TTTMatch → List (String × MoveData) → TTTMatch × List Event
  | m, [] => (m, [])
  | m, (u, d) :: rest =>
    let s1 := handleMove m u (some d)
    let s2 := playMoves s1.1 rest
    (s2.1, s1.2 ++ s2.2)

/-! ## Matchmaking queue (backend/matchmaking.go)

The global `matchmakingQueue` is a Go map userID -> `MatchmakingQueue`
entry `{UserID, Mode, Timestamp}`; the timestamp carries no logic, so we
embed the queue as an association list userID -> mode with map
insert/delete semantics. The `MatchCreate` host call is an external
collaborator: its result is a parameter (`some matchID` on success,
`none` on failure). The map-range scan for an opponent, whose iteration
order Go leaves unspecified, is embedded as a front-to-back scan. -/

/-- Result of one `startMatchmakingRPC`/`stopMatchmakingRPC` call. -/
inductive RpcResult
  /-- Success path: the response carries the created match id as ticket. -/
  | matchedTicket (matchID : String) (mode : String)
  /-- Enqueued path (including the MatchCreate-failure fallback): a
  fresh waiting ticket, no error surfaced to the caller. -/
  | waitingTicket (mode : String)
  /-- The RPC returned a Go error. -/
  | rpcError (msg : String)
  /-- `stopMatchmakingRPC` acknowledgement payload. -/
  | stopAck
deriving DecidableEq

/-- Collaborator calls made by the matchmaking RPCs. -/
inductive MMEvent
  /-- `NotificationsSend` to the previously queued opponent. -/
  | notifyMatchCreated (userID : String) (matchID : String) (mode : String)
deriving DecidableEq

/-- The mode validation of `startMatchmakingRPC` (matchmaking.go):
any mode other than classic or advanced defaults to classic. -/
def normalizeMode (rawMode : String) : String :=
  if rawMode ≠ GameModeClassic ∧ rawMode ≠ GameModeAdvanced then GameModeClassic
  else rawMode

/-- `startMatchmakingRPC` (matchmaking.go): unmarshal (failure embedded
as `req = none`), default invalid modes to classic, require an
authenticated user (`auth = none` otherwise), then under the queue lock:
scan for a queued entry with the same mode and a different user. If one
is found, delete it and call `MatchCreate`; on success return the match
id and notify the opponent, on failure fall back to enqueueing the
caller with a waiting ticket. If no opponent is found, enqueue the
caller. -/
def startMatchmakingRPC (q : List (String × String)) (auth : Option String)
    (req : Option String) (createResult : Option String) :
    List (String × String) × RpcResult × List MMEvent :=
  match req with
  | none => (q, RpcResult.rpcError "invalid request format", [])
  | some rawMode =>
    let mode := normalizeMode rawMode
    match auth with
    | none => (q, RpcResult.rpcError "user not authenticated", [])
    | some userID =>
      match q.find? (fun e => e.2 == mode && e.1 != userID) with
      | some opponent =>
        let q1 := mapDelete q opponent.1
        match createResult with
        | none =>
          (mapInsert q1 userID mode, RpcResult.waitingTicket mode, [])
        | some matchID =>
          (q1, RpcResult.matchedTicket matchID mode,
            [MMEvent.notifyMatchCreated opponent.1 matchID mode])
      | none =>
        (mapInsert q userID mode, RpcResult.waitingTicket mode, [])

/-- `stopMatchmakingRPC` (matchmaking.go): unmarshal, require an
authenticated user, then delete the caller's queue entry (a no-op when
absent) and acknowledge. -/
def stopMatchmakingRPC (q : List (String × String)) (auth : Option String)
    (req : Option String) : List (String × String) × RpcResult :=
  match req with
  | none => (q, RpcResult.rpcError "invalid request format")
  | some _ =>
    match auth with
    | none => (q, RpcResult.rpcError "user not authenticated")
    | some userID => (mapDelete q userID, RpcResult.stopAck)

/-- One queue-mutating call, for quantifying over reachable queue states. -/
inductive QOp
  | start (userID rawMode : String) (createResult : Option String)
  | stop (userID : String)

/-- The queue after one authenticated RPC call. -/
def applyOp (q : List (String × String)) : QOp → List (String × String)
  | QOp.start u rawMode res => (startMatchmakingRPC q (some u) (some rawMode) res).1
  | QOp.stop u => (stopMatchmakingRPC q (some u) (some "t")).1

/-- The queue reached from the empty initial queue by a call sequence
(most recent call first in the list tail order: the list is applied
left to right). -/
def runOps (ops : List QOp) : List (String × String) :=
  ops.foldl applyOp []

/-! ## Observation helpers used to state the claims -/

/-- Delivery set of a broadcast event: a `none` target (`nil` presences
in `BroadcastMessage`) reaches every participant of the match. -/
def eventRecipients (e : Event) (participants : List String) : List String :=
  match e with
  | Event.errorMsg _ none => participants
  | Event.errorMsg _ (some l) => l
  | Event.stateMsg _ none => participants
  | Event.stateMsg _ (some l) => l
  | Event.report _ _ => []

/-- The outcome reports addressed to player `u` within an event list. -/
def reportsFor (evs : List Event) (u : String) : List Outcome :=
  evs.filterMap (fun e =>
    match e with
    | Event.report u' o => if u' = u then some o else none
    | _ => none)

/-- Well-formed board geometry: `size` rows of `size` cells, as built by
`MatchInit` and preserved by every move. -/
def WF (m : TTTMatch) : Prop :=
  m.board.length = m.size ∧ ∀ r ∈ m.board, r.length = m.size

/-- All six validation checks of `handleMove` pass. -/
def MoveAccepted (m : TTTMatch) (userID : String) (mv : Option MoveData) : Prop :=
  m.state = GameStatePlaying ∧
  ∃ d, mv = some d ∧
    ¬(d.row < 0 ∨ d.row ≥ (m.size : Int) ∨ d.col < 0 ∨ d.col ≥ (m.size : Int)) ∧
    ∃ s, lookup m.players userID = some s ∧ s = m.turn ∧
      cell m.board d.row.toNat d.col.toNat = Empty

/-- Row `i` of `b` is completely filled with `s`. -/
def IsRowLine (b : Board) (size i : Nat) (s : String) : Prop :=
  ∀ j < size, cell b i j = s

/-- Column `j` of `b` is completely filled with `s`. -/
def IsColLine (b : Board) (size j : Nat) (s : String) : Prop :=
  ∀ i < size, cell b i j = s

/-- The main diagonal of `b` is completely filled with `s`. -/
def IsDiagLine (b : Board) (size : Nat) (s : String) : Prop :=
  ∀ i < size, cell b i i = s

/-- The anti-diagonal of `b` is completely filled with `s`. -/
def IsAntiDiagLine (b : Board) (size : Nat) (s : String) : Prop :=
  ∀ i < size, cell b i (size - 1 - i) = s

/-- Some full line (row, column, or either diagonal) of nonempty symbol
`s` exists on the board. -/
def HasWinLine (b : Board) (size : Nat) (s : String) : Prop :=
  s ≠ Empty ∧
    ((∃ i < size, IsRowLine b size i s) ∨ (∃ j < size, IsColLine b size j s) ∨
      IsDiagLine b size s ∨ IsAntiDiagLine b size s)

/-! ## Concrete sample matches -/

/-- A classic match with "alice" (X) and "bob" (O) admitted, in the
playing state, as produced by `MatchInit` plus two join attempts. -/
def demoPlaying : TTTMatch :=
  (matchJoinAttempt (matchJoinAttempt (matchInit (some GameModeClassic)) "alice").1 "bob").1

/-- Five accepted moves ending with X completing row 0 at (0,2):
X(0,0), O(1,0), X(0,1), O(1,1), X(0,2). -/
def winDemo : TTTMatch × List Event :=
  playMoves demoPlaying
    [("alice", ⟨0, 0⟩), ("bob", ⟨1, 0⟩), ("alice", ⟨0, 1⟩), ("bob", ⟨1, 1⟩),
     ("alice", ⟨0, 2⟩)]

/-- Nine accepted moves filling the classic board with no line:
final position X X O / O O X / X X O. -/
def drawDemo : TTTMatch × List Event :=
  playMoves demoPlaying
    [("alice", ⟨0, 0⟩), ("bob", ⟨0, 2⟩), ("alice", ⟨0, 1⟩), ("bob", ⟨1, 0⟩),
     ("alice", ⟨1, 2⟩), ("bob", ⟨1, 1⟩), ("alice", ⟨2, 0⟩), ("bob", ⟨2, 2⟩),
     ("alice", ⟨2, 1⟩)]

/-! ## Board lemmas -/

theorem getD_set_self {α : Type} (l : List α) (i : Nat) (a d : α) (h : i < l.length) :
    (l.set i a).getD i d = a := by
  rw [List.getD_eq_getElem?_getD, List.getElem?_set_self', List.getElem?_eq_getElem h]
  rfl

theorem getD_set_ne {α : Type} (l : List α) (i k : Nat) (a d : α) (h : i ≠ k) :
    (l.set i a).getD k d = l.getD k d := by
  rw [List.getD_eq_getElem?_getD, List.getElem?_set_ne h, List.getD_eq_getElem?_getD]

theorem getD_row_length (b : Board) (n i : Nat) (hb : b.length = n)
    (hr : ∀ r ∈ b, r.length = n) (hi : i < n) : (b.getD i []).length = n := by
  have hlt : i < b.length := by omega
  rw [List.getD_eq_getElem _ _ hlt]
  exact hr _ (List.getElem_mem hlt)

theorem cell_setCell_self (b : Board) (n i j : Nat) (v : String)
    (hb : b.length = n) (hr : ∀ r ∈ b, r.length = n) (hi : i < n) (hj : j < n) :
    cell (setCell b i j v) i j = v := by
  have hlt : i < b.length := by omega
  have hrow : (b.getD i []).length = n := getD_row_length b n i hb hr hi
  unfold cell setCell
  rw [getD_set_self _ _ _ _ hlt]
  exact getD_set_self _ _ _ _ (by omega)

theorem cell_setCell_of_ne (b : Board) (r c i j : Nat) (v : String)
    (h : ¬(i = r ∧ j = c)) : cell (setCell b r c v) i j = cell b i j := by
  by_cases hir : i = r
  · subst hir
    have hjc : c ≠ j := fun hc => h ⟨rfl, hc.symm⟩
    unfold cell setCell
    by_cases hlt : i < b.length
    · rw [getD_set_self _ _ _ _ hlt, getD_set_ne _ _ _ _ _ hjc]
    · rw [List.set_eq_of_length_le (by omega)]
  · unfold cell setCell
    rw [getD_set_ne _ _ _ _ _ (fun hri => hir hri.symm)]

/-! ## checkWinner lemmas -/

theorem lineWinner_eq_some (b : Board) (size : Nat) (pos : Nat → Nat × Nat) (s : String)
    (h : lineWinner b size pos = some s) :
    s ≠ Empty ∧ ∀ k < size, cell b (pos k).1 (pos k).2 = s := by
  unfold lineWinner at h
  split at h
  · next hc =>
    obtain ⟨hne, hall⟩ := hc
    injection h with h
    refine ⟨h ▸ hne, fun k hk => ?_⟩
    rcases Nat.eq_zero_or_pos k with rfl | hk0
    · exact h
    · have hmem : k ∈ List.range' 1 (size - 1) := by
        rw [List.mem_range'_1]; omega
      have hbeq := List.all_eq_true.mp hall k hmem
      exact (eq_of_beq hbeq).trans h
  · exact absurd h (by simp)

theorem lineWinner_complete (b : Board) (size : Nat) (pos : Nat → Nat × Nat) (s : String)
    (hs : s ≠ Empty) (hn : 0 < size)
    (hline : ∀ k < size, cell b (pos k).1 (pos k).2 = s) :
    lineWinner b size pos = some s := by
  have h0 : cell b (pos 0).1 (pos 0).2 = s := hline 0 hn
  unfold lineWinner
  rw [if_pos]
  · rw [h0]
  · refine ⟨by rw [h0]; exact hs, List.all_eq_true.mpr fun k hk => ?_⟩
    rw [List.mem_range'_1] at hk
    have hk' := hline k (by omega)
    rw [hk', h0]
    exact beq_self_eq_true s

/-- Any symbol produced by `checkWinner` really labels a full line. -/
theorem checkWinner_cases (m : TTTMatch) :
    checkWinner m = Empty ∨ HasWinLine m.board m.size (checkWinner m) := by
  unfold checkWinner
  cases hr : (List.range m.size).findSome? (rowWinnerAt m.board m.size) with
  | some w =>
    right
    obtain ⟨i, hi, hw⟩ := List.exists_of_findSome?_eq_some hr
    obtain ⟨hne, hline⟩ := lineWinner_eq_some _ _ _ _ hw
    exact ⟨hne, Or.inl ⟨i, List.mem_range.mp hi, hline⟩⟩
  | none =>
    cases hc : (List.range m.size).findSome? (colWinnerAt m.board m.size) with
    | some w =>
      right
      obtain ⟨j, hj, hw⟩ := List.exists_of_findSome?_eq_some hc
      obtain ⟨hne, hline⟩ := lineWinner_eq_some _ _ _ _ hw
      exact ⟨hne, Or.inr (Or.inl ⟨j, List.mem_range.mp hj, hline⟩)⟩
    | none =>
      cases hd : diagWinner m.board m.size with
      | some w =>
        right
        obtain ⟨hne, hline⟩ := lineWinner_eq_some _ _ _ _ hd
        exact ⟨hne, Or.inr (Or.inr (Or.inl hline))⟩
      | none =>
        cases ha : antiDiagWinner m.board m.size with
        | some w =>
          right
          obtain ⟨hne, hline⟩ := lineWinner_eq_some _ _ _ _ ha
          exact ⟨hne, Or.inr (Or.inr (Or.inr hline))⟩
        | none => exact Or.inl rfl

/-- If some full line exists, the scan does not come back empty. -/
theorem checkWinner_ne_empty (m : TTTMatch) (s : String) (hn : 0 < m.size)
    (h : HasWinLine m.board m.size s) : checkWinner m ≠ Empty := by
  obtain ⟨hs, hcase⟩ := h
  unfold checkWinner
  cases hr : (List.range m.size).findSome? (rowWinnerAt m.board m.size) with
  | some w =>
    obtain ⟨i, _, hw⟩ := List.exists_of_findSome?_eq_some hr
    exact (lineWinner_eq_some _ _ _ _ hw).1
  | none =>
    cases hc : (List.range m.size).findSome? (colWinnerAt m.board m.size) with
    | some w =>
      obtain ⟨j, _, hw⟩ := List.exists_of_findSome?_eq_some hc
      exact (lineWinner_eq_some _ _ _ _ hw).1
    | none =>
      cases hd : diagWinner m.board m.size with
      | some w => exact (lineWinner_eq_some _ _ _ _ hd).1
      | none =>
        cases ha : antiDiagWinner m.board m.size with
        | some w => exact (lineWinner_eq_some _ _ _ _ ha).1
        | none =>
          exfalso
          rcases hcase with ⟨i, hi, hline⟩ | ⟨j, hj, hline⟩ | hline | hline
          · have hsome : rowWinnerAt m.board m.size i = some s :=
              lineWinner_complete _ _ _ _ hs hn hline
            have := List.findSome?_eq_none_iff.mp hr i (List.mem_range.mpr hi)
            rw [hsome] at this
            exact Option.noConfusion this
          · have hsome : colWinnerAt m.board m.size j = some s :=
              lineWinner_complete _ _ _ _ hs hn hline
            have := List.findSome?_eq_none_iff.mp hc j (List.mem_range.mpr hj)
            rw [hsome] at this
            exact Option.noConfusion this
          · have hsome : diagWinner m.board m.size = some s :=
              lineWinner_complete _ _ _ _ hs hn hline
            rw [hd] at hsome
            exact Option.noConfusion hsome
          · have hsome : antiDiagWinner m.board m.size = some s :=
              lineWinner_complete _ _ _ _ hs hn hline
            rw [ha] at hsome
            exact Option.noConfusion hsome

/-- With a full line of `s` present and every full line labeled `s`,
the scan returns exactly `s`. -/
theorem checkWinner_eq_of_unique (m : TTTMatch) (s : String) (hn : 0 < m.size)
    (h : HasWinLine m.board m.size s)
    (huniq : ∀ s', HasWinLine m.board m.size s' → s' = s) :
    checkWinner m = s := by
  rcases checkWinner_cases m with hz | hline
  · exact absurd hz (checkWinner_ne_empty m s hn h)
  · exact huniq _ hline

/-! ## handleMove lemmas -/

/-- Every failed validation returns the match untouched together with a
single error broadcast to all players. -/
theorem handleMove_not_accepted (m : TTTMatch) (u : String) (mv : Option MoveData)
    (h : ¬ MoveAccepted m u mv) :
    ∃ msg, handleMove m u mv = (m, [Event.errorMsg msg none]) := by
  by_cases h1 : m.state = GameStatePlaying
  · cases mv with
    | none => exact ⟨"Invalid move data", by simp [handleMove, sendError, h1]⟩
    | some d =>
      by_cases h2 : d.row < 0 ∨ d.row ≥ (m.size : Int) ∨ d.col < 0 ∨ d.col ≥ (m.size : Int)
      · exact ⟨"Invalid move coordinates", by simp only [handleMove, sendError, h1, h2,
          ne_eq, not_true_eq_false, if_false, if_true, reduceIte]⟩
      · cases hl : lookup m.players u with
        | none => exact ⟨"Player not in match", by simp [handleMove, sendError, h1, h2, hl]⟩
        | some s =>
          by_cases h3 : s = m.turn
          · by_cases h4 : cell m.board d.row.toNat d.col.toNat = Empty
            · exact absurd ⟨h1, d, rfl, h2, s, hl, h3, h4⟩ h
            · exact ⟨"Cell already occupied",
                by simp [handleMove, sendError, h1, h2, hl, h3, h4]⟩
          · exact ⟨"Not your turn", by simp [handleMove, sendError, h1, h2, hl, h3]⟩
  · exact ⟨"Game is not in playing state", by simp [handleMove, sendError, h1]⟩

/-- An accepted move commits through `moveResult`. -/
theorem handleMove_accepted (m : TTTMatch) (u : String) (d : MoveData) (s : String)
    (h1 : m.state = GameStatePlaying)
    (h2 : ¬(d.row < 0 ∨ d.row ≥ (m.size : Int) ∨ d.col < 0 ∨ d.col ≥ (m.size : Int)))
    (hl : lookup m.players u = some s) (h3 : s = m.turn)
    (h4 : cell m.board d.row.toNat d.col.toNat = Empty) :
    handleMove m u (some d) = moveResult m s d.row.toNat d.col.toNat := by
  simp [handleMove, h1, h2, hl, h3, h4]

theorem moveResult_board (m : TTTMatch) (s : String) (r c : Nat) :
    (moveResult m s r c).1.board = setCell m.board r c s := by
  unfold moveResult
  dsimp only
  split
  · rfl
  · split <;> rfl

theorem moveResult_moveCount (m : TTTMatch) (s : String) (r c : Nat) :
    (moveResult m s r c).1.moveCount = m.moveCount + 1 := by
  unfold moveResult
  dsimp only
  split
  · rfl
  · split <;> rfl

theorem moveResult_players (m : TTTMatch) (s : String) (r c : Nat) :
    (moveResult m s r c).1.players = m.players := by
  unfold moveResult
  dsimp only
  split
  · rfl
  · split <;> rfl

theorem moveResult_getLast (m : TTTMatch) (s : String) (r c : Nat) :
    (moveResult m s r c).2.getLast? =
      some (Event.stateMsg (stateOf (moveResult m s r c).1) none) := by
  unfold moveResult
  dsimp only
  exact List.getLast?_concat _

theorem moveResult_state_turn (m : TTTMatch) (s : String) (r c : Nat) :
    ((moveResult m s r c).1.state = GameStateFinished ∧
      (moveResult m s r c).1.turn = m.turn) ∨
    ((moveResult m s r c).1.state = m.state ∧
      (moveResult m s r c).1.turn = (if m.turn = PlayerX then PlayerO else PlayerX)) := by
  unfold moveResult
  dsimp only
  split
  · exact Or.inl ⟨rfl, rfl⟩
  · split
    · exact Or.inl ⟨rfl, rfl⟩
    · exact Or.inr ⟨rfl, rfl⟩

theorem moveResult_win (m : TTTMatch) (s : String) (r c : Nat)
    (hw : checkWinner (postMove m s r c) ≠ Empty) :
    (moveResult m s r c).1.winner = checkWinner (postMove m s r c) ∧
    (moveResult m s r c).1.state = GameStateFinished := by
  unfold moveResult
  dsimp only
  rw [if_pos hw]
  exact ⟨rfl, rfl⟩

theorem moveResult_draw (m : TTTMatch) (s : String) (r c : Nat)
    (hz : checkWinner (postMove m s r c) = Empty)
    (hfull : m.moveCount + 1 ≥ m.size * m.size) :
    moveResult m s r c =
      ({ postMove m s r c with state := GameStateFinished },
        updateLeaderboardEvents { postMove m s r c with state := GameStateFinished } ++
          [Event.stateMsg
            (stateOf { postMove m s r c with state := GameStateFinished }) none]) := by
  unfold moveResult
  dsimp only
  rw [if_neg (not_not_intro hz),
    if_pos (show (postMove m s r c).moveCount ≥
      (postMove m s r c).size * (postMove m s r c).size from hfull)]

/-! ## Association-list lemmas -/

theorem lookup_cons_self (p : String × String) (rest : List (String × String))
    (k : String) (h : p.1 = k) : lookup (p :: rest) k = some p.2 := by
  unfold lookup
  rw [List.find?_cons_of_pos _ (by simpa using h)]
  rfl

theorem lookup_cons_ne (p : String × String) (rest : List (String × String))
    (k : String) (h : ¬ p.1 = k) : lookup (p :: rest) k = lookup rest k := by
  unfold lookup
  rw [List.find?_cons_of_neg _ (by simpa using h)]

theorem lookup_mapDelete_self (l : List (String × String)) (k : String) :
    lookup (mapDelete l k) k = none := by
  induction l with
  | nil => rfl
  | cons p rest ih =>
    unfold mapDelete at ih ⊢
    rw [List.filter_cons]
    by_cases hp : p.1 = k
    · rw [if_neg (by simp [hp])]
      exact ih
    · rw [if_pos (by simpa using hp), lookup_cons_ne _ _ _ hp]
      exact ih

theorem lookup_map_replace_self (l : List (String × String)) (k v : String)
    (hany : l.any (fun p => p.1 == k) = true) :
    lookup (l.map (fun p => if p.1 == k then (k, v) else p)) k = some v := by
  induction l with
  | nil => simp at hany
  | cons p rest ih =>
    rw [List.map_cons]
    by_cases hp : p.1 = k
    · rw [if_pos (by simpa using hp), lookup_cons_self _ _ _ rfl]
    · rw [if_neg (by simpa using hp), lookup_cons_ne _ _ _ hp]
      exact ih (by simpa [hp] using hany)

theorem lookup_append_single_self (l : List (String × String)) (k v : String)
    (hnone : ∀ p ∈ l, ¬ p.1 = k) :
    lookup (l ++ [(k, v)]) k = some v := by
  induction l with
  | nil => exact lookup_cons_self _ _ _ rfl
  | cons p rest ih =>
    rw [List.cons_append, lookup_cons_ne _ _ _ (hnone p (by simp))]
    exact ih (fun q hq => hnone q (by simp [hq]))

theorem lookup_mapInsert_self (l : List (String × String)) (k v : String) :
    lookup (mapInsert l k v) k = some v := by
  unfold mapInsert
  by_cases hany : l.any (fun p => p.1 == k)
  · rw [if_pos hany]
    exact lookup_map_replace_self l k v hany
  · rw [if_neg hany]
    refine lookup_append_single_self l k v (fun p hp he => ?_)
    simp only [List.any_eq_true, not_exists, not_and] at hany
    exact hany p hp (by simpa using he)

theorem lookup_map_replace_ne (l : List (String × String)) (k v k' : String)
    (h : k' ≠ k) :
    lookup (l.map (fun p => if p.1 == k then (k, v) else p)) k' = lookup l k' := by
  induction l with
  | nil => rfl
  | cons p rest ih =>
    rw [List.map_cons]
    by_cases hp : p.1 = k
    · rw [if_pos (by simpa using hp), lookup_cons_ne _ _ _ (Ne.symm h),
        lookup_cons_ne _ _ _ (fun hpk' => Ne.symm h (hp.symm.trans hpk'))]
      exact ih
    · rw [if_neg (by simpa using hp)]
      by_cases hpk' : p.1 = k'
      · rw [lookup_cons_self _ _ _ hpk', lookup_cons_self _ _ _ hpk']
      · rw [lookup_cons_ne _ _ _ hpk', lookup_cons_ne _ _ _ hpk']
        exact ih

theorem lookup_mapInsert_ne (l : List (String × String)) (k v k' : String)
    (h : k' ≠ k) : lookup (mapInsert l k v) k' = lookup l k' := by
  unfold mapInsert
  by_cases hany : l.any (fun p => p.1 == k)
  · rw [if_pos hany]
    exact lookup_map_replace_ne l k v k' h
  · rw [if_neg hany]
    unfold lookup
    rw [List.find?_append, show List.find? (fun p => p.1 == k') [(k, v)] = none from by
      rw [List.find?_cons_of_neg _ (by simpa using Ne.symm h)]
      rfl]
    simp

/-! ## Queue-key lemmas -/

theorem keys_mapDelete_nodup (l : List (String × String)) (k : String)
    (h : (l.map Prod.fst).Nodup) : ((mapDelete l k).map Prod.fst).Nodup :=
  h.sublist ((List.filter_sublist l).map Prod.fst)

theorem keys_mapInsert_nodup (l : List (String × String)) (k v : String)
    (h : (l.map Prod.fst).Nodup) : ((mapInsert l k v).map Prod.fst).Nodup := by
  unfold mapInsert
  by_cases hany : l.any (fun p => p.1 == k)
  · rw [if_pos hany]
    have hkeys : (l.map (fun p => if p.1 == k then (k, v) else p)).map Prod.fst =
        l.map Prod.fst := by
      rw [List.map_map]
      refine List.map_congr_left (fun p _ => ?_)
      by_cases hp : p.1 = k
      · simp [Function.comp, hp]
      · simp [Function.comp, hp]
    rw [hkeys]
    exact h
  · rw [if_neg hany]
    rw [List.map_append]
    rw [List.nodup_append]
    refine ⟨h, List.nodup_singleton k, fun a ha hb => ?_⟩
    simp only [List.map_cons, List.map_nil, List.mem_singleton] at hb
    subst hb
    simp only [List.any_eq_true, not_exists, not_and] at hany
    obtain ⟨p, hp, hpk⟩ := List.mem_map.mp ha
    exact hany p hp (by simpa using hpk)

theorem applyOp_keys_nodup (q : List (String × String)) (op : QOp)
    (h : (q.map Prod.fst).Nodup) : ((applyOp q op).map Prod.fst).Nodup := by
  cases op with
  | start u rawMode res =>
    simp only [applyOp, startMatchmakingRPC]
    cases hf : q.find? (fun e => e.2 == normalizeMode rawMode && e.1 != u) with
    | some opp =>
      cases res with
      | none => exact keys_mapInsert_nodup _ _ _ (keys_mapDelete_nodup _ _ h)
      | some matchID => exact keys_mapDelete_nodup _ _ h
    | none => exact keys_mapInsert_nodup _ _ _ h
  | stop u => exact keys_mapDelete_nodup _ _ h

theorem runOps_keys_nodup (ops : List QOp) : ((runOps ops).map Prod.fst).Nodup := by
  suffices h : ∀ q : List (String × String), (q.map Prod.fst).Nodup →
      ((ops.foldl applyOp q).map Prod.fst).Nodup from h [] (by simp)
  induction ops with
  | nil => exact fun q hq => hq
  | cons op rest ih =>
    intro q hq
    exact ih _ (applyOp_keys_nodup q op hq)

/-! ## reportsFor lemmas -/

theorem reportsFor_append (evs1 evs2 : List Event) (u : String) :
    reportsFor (evs1 ++ evs2) u = reportsFor evs1 u ++ reportsFor evs2 u := by
  unfold reportsFor
  exact List.filterMap_append _ _ _

theorem reportsFor_stateMsg (st : StateData) (t : Option (List String)) (u : String) :
    reportsFor [Event.stateMsg st t] u = [] := rfl

theorem reportsFor_map_not_mem (ps : List (String × String)) (u : String)
    (f : String × String → Outcome) (h : u ∉ ps.map Prod.fst) :
    reportsFor (ps.map fun p => Event.report p.1 (f p)) u = [] := by
  induction ps with
  | nil => rfl
  | cons p rest ih =>
    have h1 : ¬(p.1 = u) := fun he => h (by simp [he])
    have h2 : u ∉ rest.map Prod.fst := fun hm => h (by simp [hm])
    unfold reportsFor at ih ⊢
    rw [List.map_cons, List.filterMap_cons]
    simp only [h1, if_false]
    exact ih h2

theorem reportsFor_map_nodup (ps : List (String × String)) (u : String)
    (f : String × String → Outcome)
    (hnd : (ps.map Prod.fst).Nodup) (hu : u ∈ ps.map Prod.fst) :
    ∃ p, p ∈ ps ∧ p.1 = u ∧
      reportsFor (ps.map fun q => Event.report q.1 (f q)) u = [f p] := by
  induction ps with
  | nil => simp at hu
  | cons p rest ih =>
    rw [List.map_cons] at hnd hu
    by_cases hpu : p.1 = u
    · refine ⟨p, by simp, hpu, ?_⟩
      unfold reportsFor
      rw [List.map_cons, List.filterMap_cons]
      simp only [hpu, if_true, reduceIte]
      have hnm : u ∉ rest.map Prod.fst := hpu ▸ (List.nodup_cons.mp hnd).1
      have hrest : reportsFor (rest.map fun q => Event.report q.1 (f q)) u = [] :=
        reportsFor_map_not_mem rest u f hnm
      unfold reportsFor at hrest
      rw [hrest]
    · have hu' : u ∈ rest.map Prod.fst := by
        rcases List.mem_cons.mp hu with he | hm
        · exact absurd he.symm hpu
        · exact hm
      obtain ⟨q, hq, hq1, heq⟩ := ih (List.nodup_cons.mp hnd).2 hu'
      refine ⟨q, by simp [hq], hq1, ?_⟩
      unfold reportsFor at heq ⊢
      rw [List.map_cons, List.filterMap_cons]
      simp only [hpu, if_false]
      exact heq

/-! ## Claim theorems -/

/-- C1: the claim demands at most one outcome report per player per
match. The code violates it: on the winning move of `winDemo`,
`handleMove` reports both players' outcomes via `updateLeaderboard`,
and `MatchTerminate` — finding the match finished with a nonempty
winner — calls `updateLeaderboard` again, so each player of the match
is reported twice (X twice as win, O twice as loss). -/
theorem c1_win_double_report :
    winDemo.1.state = GameStateFinished ∧ winDemo.1.winner = PlayerX ∧
    reportsFor (winDemo.2 ++ (matchTerminate winDemo.1).2) "alice" =
      [Outcome.win, Outcome.win] ∧
    reportsFor (winDemo.2 ++ (matchTerminate winDemo.1).2) "bob" =
      [Outcome.loss, Outcome.loss] := by
  decide

/-- C5 counterexample: removing "alice" from the playing demo match
marks it finished, but the leave handler emits no events at all and the
subsequent `MatchTerminate` (winner empty) emits none either — zero
outcome reports for the remaining player "bob", not exactly one
`Abandoned` report (no abandoned outcome exists anywhere in the code). -/
theorem c5_counterexample :
    (matchLeave demoPlaying ["alice"]).1.state = GameStateFinished ∧
    (matchLeave demoPlaying ["alice"]).2 = [] ∧
    (matchTerminate (matchLeave demoPlaying ["alice"]).1).2 = [] ∧
    reportsFor ((matchLeave demoPlaying ["alice"]).2 ++
      (matchTerminate (matchLeave demoPlaying ["alice"]).1).2) "bob" = [] := by
  decide

/-- C5 (amended): removing a player from a playing match transitions
the phase to finished and every subsequent move is rejected with the
"Game is not in playing state" error (MatchNotPlaying) without mutating
the match; but no outcome report of any kind is produced for the
remaining player — neither by `MatchLeave` (which emits nothing) nor by
`MatchTerminate` (which reports only when a winner is set) — so the
abandonment is silently unscored. -/
theorem c5_abandonment (m : TTTMatch) (us : List String)
    (hplay : m.state = GameStatePlaying) (hw : m.winner = Empty) :
    (matchLeave m us).1.state = GameStateFinished ∧
    (matchLeave m us).2 = [] ∧
    (matchTerminate (matchLeave m us).1).2 = [] ∧
    (∀ u mv, handleMove (matchLeave m us).1 u mv =
      ((matchLeave m us).1, [Event.errorMsg "Game is not in playing state" none])) := by
  have hlv : matchLeave m us =
      ({ m with players := us.foldl (fun ps u => mapDelete ps u) m.players,
                state := GameStateFinished }, []) := by
    unfold matchLeave
    rw [if_pos hplay]
  refine ⟨by rw [hlv], by rw [hlv], ?_, ?_⟩
  · rw [hlv]
    unfold matchTerminate
    rw [if_neg (by simp [hw, Empty])]
  · intro u mv
    rw [hlv]
    unfold handleMove
    rw [if_pos (by simp [GameStateFinished, GameStatePlaying])]
    rfl

/-- Closed witness for `c5_abandonment` at the concrete demo match. -/
theorem c5_abandonment_witness :
    demoPlaying.state = GameStatePlaying ∧ demoPlaying.winner = Empty ∧
    (matchLeave demoPlaying ["alice"]).1.state = GameStateFinished :=
  ⟨by decide, by decide,
    (c5_abandonment demoPlaying ["alice"] (by decide) (by decide)).1⟩

/-- C6 counterexample: "bob" (symbol O) moves while it is X's turn; the
validation failure is broadcast with `nil` presences, whose delivery
set is every participant of the match — the opponent "alice" receives
the error too, so it is not reported to the offending client only. -/
theorem c6_counterexample :
    (handleMove demoPlaying "bob" (some ⟨0, 0⟩)).1 = demoPlaying ∧
    (handleMove demoPlaying "bob" (some ⟨0, 0⟩)).2 =
      [Event.errorMsg "Not your turn" none] ∧
    eventRecipients (Event.errorMsg "Not your turn" none)
      (demoPlaying.players.map Prod.fst) = ["alice", "bob"] := by
  decide

/-- C6 (amended): every validation failure of `handleMove` leaves the
match unchanged and emits exactly one error message whose `nil` target
is delivered to all participants of the match (offender and opponent
alike), because `sendError` broadcasts with `nil` presences. -/
theorem c6_error_broadcast (m : TTTMatch) (u : String) (mv : Option MoveData)
    (h : ¬ MoveAccepted m u mv) :
    (handleMove m u mv).1 = m ∧
    ∃ msg, (handleMove m u mv).2 = [Event.errorMsg msg none] ∧
      eventRecipients (Event.errorMsg msg none) (m.players.map Prod.fst) =
        m.players.map Prod.fst := by
  obtain ⟨msg, hm⟩ := handleMove_not_accepted m u mv h
  rw [hm]
  exact ⟨rfl, msg, rfl, rfl⟩

/-- Closed witness for `c6_error_broadcast`: "bob" moving out of turn. -/
theorem c6_error_broadcast_witness :
    (handleMove demoPlaying "bob" (some ⟨0, 0⟩)).1 = demoPlaying :=
  (c6_error_broadcast demoPlaying "bob" (some ⟨0, 0⟩) (by
    rintro ⟨-, d, hd, -, s, hl, ht, -⟩
    injection hd with hd
    subst hd
    rw [show lookup demoPlaying.players "bob" = some PlayerO from by decide] at hl
    injection hl with hl
    rw [← hl] at ht
    exact absurd ht (by decide))).1

/-- C7: a move rejected by any validation leaves the entire match value
unchanged, and in particular a move aimed at an occupied cell never
alters the board, regardless of phase or turn. -/
theorem c7_no_mutation_on_failure (m : TTTMatch) (u : String) (mv : Option MoveData) :
    (¬ MoveAccepted m u mv → (handleMove m u mv).1 = m) ∧
    (∀ d, mv = some d → cell m.board d.row.toNat d.col.toNat ≠ Empty →
      (handleMove m u mv).1.board = m.board) := by
  constructor
  · intro h
    obtain ⟨msg, hm⟩ := handleMove_not_accepted m u mv h
    rw [hm]
  · intro d hd hocc
    subst hd
    have hrej : ¬ MoveAccepted m u (some d) := by
      rintro ⟨-, d', hd', -, s, -, -, hcell⟩
      injection hd' with hd'
      subst hd'
      exact hocc hcell
    obtain ⟨msg, hm⟩ := handleMove_not_accepted m u (some d) hrej
    rw [hm]

/-- Closed witness for `c7_no_mutation_on_failure`: "bob" replaying the
occupied cell (0,0) after "alice" has taken it. -/
theorem c7_no_mutation_witness :
    (handleMove (handleMove demoPlaying "alice" (some ⟨0, 0⟩)).1 "bob"
      (some ⟨0, 0⟩)).1.board =
      (handleMove demoPlaying "alice" (some ⟨0, 0⟩)).1.board :=
  (c7_no_mutation_on_failure (handleMove demoPlaying "alice" (some ⟨0, 0⟩)).1 "bob"
    (some ⟨0, 0⟩)).2 ⟨0, 0⟩ rfl (by decide)

/-- C8 counterexample: an out-of-bounds move (row 5) against a match
that is not in the playing phase (a fresh `MatchInit` match, still
waiting) fails with the "Game is not in playing state" error
(MatchNotPlaying), not with "Invalid move coordinates"
(InvalidCoordinates): the phase check precedes the coordinate check. -/
theorem c8_counterexample :
    (handleMove (matchInit (some GameModeClassic)) "alice" (some ⟨5, 0⟩)).2 =
      [Event.errorMsg "Game is not in playing state" none] ∧
    (handleMove (matchInit (some GameModeClassic)) "alice" (some ⟨5, 0⟩)).1 =
      matchInit (some GameModeClassic) := by
  decide

/-- C8 (amended): during the playing phase an out-of-bounds move fails
with the "Invalid move coordinates" error (InvalidCoordinates) and
leaves the match unchanged; in every phase an out-of-bounds move leaves
the board unchanged. -/
theorem c8_invalid_coordinates (m : TTTMatch) (u : String) (d : MoveData)
    (hoob : d.row < 0 ∨ d.row ≥ (m.size : Int) ∨ d.col < 0 ∨ d.col ≥ (m.size : Int)) :
    (m.state = GameStatePlaying →
      handleMove m u (some d) = (m, [Event.errorMsg "Invalid move coordinates" none])) ∧
    (handleMove m u (some d)).1.board = m.board := by
  constructor
  · intro hplay
    unfold handleMove
    rw [if_neg (by simp [hplay])]
    dsimp only
    rw [if_pos hoob]
    rfl
  · have hrej : ¬ MoveAccepted m u (some d) := by
      rintro ⟨-, d', hd', hnb, -⟩
      injection hd' with hd'
      subst hd'
      exact hnb hoob
    obtain ⟨msg, hm⟩ := handleMove_not_accepted m u (some d) hrej
    rw [hm]

/-- Closed witness for `c8_invalid_coordinates` at the playing demo
match with row 5. -/
theorem c8_invalid_coordinates_witness :
    handleMove demoPlaying "alice" (some ⟨5, 0⟩) =
      (demoPlaying, [Event.errorMsg "Invalid move coordinates" none]) :=
  (c8_invalid_coordinates demoPlaying "alice" ⟨5, 0⟩ (by decide)).1 (by decide)

/-- C2: an in-bounds move on an empty cell by the player whose symbol
equals `turn` while the match is playing sets exactly that one cell to
the mover's symbol, increments `moveCount` by exactly 1, flips `turn`
to the other symbol unless the move finished the match (in which case
`turn` is left as it was), and ends by broadcasting the full updated
state to all participants (`nil` target), including on a finishing
move. -/
theorem c2_accepted_move (m : TTTMatch) (u : String) (d : MoveData) (s : String)
    (hWF : WF m) (h1 : m.state = GameStatePlaying)
    (hr0 : 0 ≤ d.row) (hr1 : d.row < (m.size : Int))
    (hc0 : 0 ≤ d.col) (hc1 : d.col < (m.size : Int))
    (hl : lookup m.players u = some s) (h3 : s = m.turn)
    (h4 : cell m.board d.row.toNat d.col.toNat = Empty) :
    cell (handleMove m u (some d)).1.board d.row.toNat d.col.toNat = s ∧
    (∀ i j : Nat, ¬(i = d.row.toNat ∧ j = d.col.toNat) →
      cell (handleMove m u (some d)).1.board i j = cell m.board i j) ∧
    (handleMove m u (some d)).1.moveCount = m.moveCount + 1 ∧
    ((handleMove m u (some d)).1.state ≠ GameStateFinished →
      (handleMove m u (some d)).1.turn =
        (if m.turn = PlayerX then PlayerO else PlayerX)) ∧
    ((handleMove m u (some d)).1.state = GameStateFinished →
      (handleMove m u (some d)).1.turn = m.turn) ∧
    (handleMove m u (some d)).2.getLast? =
      some (Event.stateMsg (stateOf (handleMove m u (some d)).1) none) := by
  have h2 : ¬(d.row < 0 ∨ d.row ≥ (m.size : Int) ∨ d.col < 0 ∨ d.col ≥ (m.size : Int)) := by
    omega
  rw [handleMove_accepted m u d s h1 h2 hl h3 h4]
  refine ⟨?_, ?_, moveResult_moveCount m s _ _, ?_, ?_, moveResult_getLast m s _ _⟩
  · rw [moveResult_board]
    exact cell_setCell_self m.board m.size d.row.toNat d.col.toNat s hWF.1 hWF.2
      (by omega) (by omega)
  · intro i j hij
    rw [moveResult_board]
    exact cell_setCell_of_ne m.board d.row.toNat d.col.toNat i j s hij
  · intro hne
    rcases moveResult_state_turn m s d.row.toNat d.col.toNat with ⟨hf, -⟩ | ⟨-, ht⟩
    · exact absurd hf hne
    · exact ht
  · intro hfin
    rcases moveResult_state_turn m s d.row.toNat d.col.toNat with ⟨-, ht⟩ | ⟨hst, -⟩
    · exact ht
    · rw [hst, h1] at hfin
      exact absurd hfin (by decide)

/-- Closed witness for `c2_accepted_move`: "alice" (X) plays (0,0) in
the fresh demo match. -/
theorem c2_accepted_move_witness :
    cell (handleMove demoPlaying "alice" (some ⟨0, 0⟩)).1.board 0 0 = PlayerX :=
  (c2_accepted_move demoPlaying "alice" ⟨0, 0⟩ PlayerX ⟨by decide, by decide⟩
    (by decide) (by decide) (by decide) (by decide) (by decide) (by decide)
    (by decide) (by decide)).1

/-- C9 counterexample: "alice" queues for classic, "bob" queues for
advanced, then "alice" requests advanced and is matched with "bob" as
the caller who found the opponent — yet her stale classic entry is
still in the queue afterwards, so a matched player's entry was not
removed the instant that player was matched. -/
theorem c9_counterexample :
    (startMatchmakingRPC
      (startMatchmakingRPC
        (startMatchmakingRPC [] (some "alice") (some "classic") (some "m0")).1
        (some "bob") (some "advanced") (some "m0")).1
      (some "alice") (some "advanced") (some "m1")).2.1 =
      RpcResult.matchedTicket "m1" GameModeAdvanced ∧
    lookup (startMatchmakingRPC
      (startMatchmakingRPC
        (startMatchmakingRPC [] (some "alice") (some "classic") (some "m0")).1
        (some "bob") (some "advanced") (some "m0")).1
      (some "alice") (some "advanced") (some "m1")).1 "alice" =
      some GameModeClassic := by
  decide

/-- C9 (amended): at every queue state reachable from the empty queue
through the two RPCs there is at most one entry per player id (the
queue is a map keyed by user id), and the waiting opponent's entry is
removed the instant it is matched; however the caller who finds the
opponent keeps any pre-existing entry of their own (for another mode)
— only re-enqueueing replaces it and cancelling removes it. -/
theorem c9_queue_invariant :
    (∀ ops : List QOp, ((runOps ops).map Prod.fst).Nodup) ∧
    (∀ (q : List (String × String)) (u rawMode matchID : String)
      (opp : String × String),
      q.find? (fun e => e.2 == normalizeMode rawMode && e.1 != u) = some opp →
      lookup (startMatchmakingRPC q (some u) (some rawMode) (some matchID)).1
        opp.1 = none) := by
  refine ⟨runOps_keys_nodup, fun q u rawMode matchID opp hfind => ?_⟩
  unfold startMatchmakingRPC
  dsimp only
  rw [hfind]
  exact lookup_mapDelete_self q opp.1

/-- Closed witness for `c9_queue_invariant`: "dave" matching the queued
"carol". -/
theorem c9_queue_invariant_witness :
    lookup (startMatchmakingRPC [("carol", GameModeClassic)] (some "dave")
      (some GameModeClassic) (some "m1")).1 "carol" = none :=
  c9_queue_invariant.2 [("carol", GameModeClassic)] "dave" GameModeClassic "m1"
    ("carol", GameModeClassic) (by decide)

/-- C10: when `startMatchmakingRPC` finds a waiting opponent but the
`MatchCreate` host call fails, the RPC still answers the caller with a
normal waiting ticket (no error is surfaced), enqueues the caller, does
not restore the opponent's queue entry (it was deleted before the
creation attempt), and sends no notification, leaving the opponent
unqueued and uninformed. -/
theorem c10_create_failure (q : List (String × String)) (u rawMode : String)
    (opp : String × String)
    (hfind : q.find? (fun e => e.2 == normalizeMode rawMode && e.1 != u) = some opp) :
    (startMatchmakingRPC q (some u) (some rawMode) none).2.1 =
      RpcResult.waitingTicket (normalizeMode rawMode) ∧
    (startMatchmakingRPC q (some u) (some rawMode) none).2.2 = [] ∧
    lookup (startMatchmakingRPC q (some u) (some rawMode) none).1 u =
      some (normalizeMode rawMode) ∧
    lookup (startMatchmakingRPC q (some u) (some rawMode) none).1 opp.1 = none := by
  have hptrue := List.find?_some hfind
  have hne : opp.1 ≠ u := by
    simp only [Bool.and_eq_true, bne_iff_ne, ne_eq] at hptrue
    exact hptrue.2
  unfold startMatchmakingRPC
  dsimp only
  rw [hfind]
  refine ⟨rfl, rfl, lookup_mapInsert_self _ _ _, ?_⟩
  rw [lookup_mapInsert_ne _ _ _ _ hne]
  exact lookup_mapDelete_self q opp.1

/-- Closed witness for `c10_create_failure`: "dave" finds the queued
"carol" but match creation fails. -/
theorem c10_create_failure_witness :
    (startMatchmakingRPC [("carol", GameModeClassic)] (some "dave")
      (some GameModeClassic) none).2.1 =
      RpcResult.waitingTicket (normalizeMode GameModeClassic) :=
  (c10_create_failure [("carol", GameModeClassic)] "dave" GameModeClassic
    ("carol", GameModeClassic) (by decide)).1

/-- C3: if the submitted move completes a full line of the mover's
symbol (and, as the spec notes is necessarily the case for a single
move, every full line on the resulting board carries that same symbol),
the match transitions from playing to finished with `winner` set to
that symbol. The third conjunct exhibits the scan order concretely:
with row 0 full of O and row 1 full of X, the row scan returns the
first full line found, O. The last conjuncts check the spec's concrete
example: X played at (0,0),(0,1),(0,2) on a 3x3 board (game `winDemo`)
yields winner X and a finished match. -/
theorem c3_win_detection (m : TTTMatch) (u : String) (d : MoveData) (s : String)
    (h1 : m.state = GameStatePlaying)
    (h2 : ¬(d.row < 0 ∨ d.row ≥ (m.size : Int) ∨ d.col < 0 ∨ d.col ≥ (m.size : Int)))
    (hl : lookup m.players u = some s) (h3 : s = m.turn)
    (h4 : cell m.board d.row.toNat d.col.toNat = Empty)
    (hn : 0 < m.size)
    (hline : HasWinLine (postMove m s d.row.toNat d.col.toNat).board m.size s)
    (huniq : ∀ s', HasWinLine (postMove m s d.row.toNat d.col.toNat).board m.size s' →
      s' = s) :
    (handleMove m u (some d)).1.winner = s ∧
    (handleMove m u (some d)).1.state = GameStateFinished ∧
    checkWinner { matchInit (some GameModeClassic) with
      board := [[PlayerO, PlayerO, PlayerO], [PlayerX, PlayerX, PlayerX],
        [Empty, Empty, Empty]] } = PlayerO ∧
    winDemo.1.winner = PlayerX ∧ winDemo.1.state = GameStateFinished := by
  have hcw : checkWinner (postMove m s d.row.toNat d.col.toNat) = s :=
    checkWinner_eq_of_unique (postMove m s d.row.toNat d.col.toNat) s hn hline huniq
  have hne : checkWinner (postMove m s d.row.toNat d.col.toNat) ≠ Empty := by
    rw [hcw]
    exact hline.1
  rw [handleMove_accepted m u d s h1 h2 hl h3 h4]
  obtain ⟨hw1, hw2⟩ := moveResult_win m s d.row.toNat d.col.toNat hne
  exact ⟨hw1.trans hcw, hw2, by decide, by decide, by decide⟩

/-- A playing 3x3 match where X is one move away from completing row 0. -/
def c3m : TTTMatch :=
  { mode := GameModeClassic, size := 3,
    board := [[PlayerX, PlayerX, Empty], [PlayerO, PlayerO, Empty],
              [Empty, Empty, Empty]],
    turn := PlayerX, winner := Empty, state := GameStatePlaying,
    players := [("alice", PlayerX), ("bob", PlayerO)], moveCount := 4 }

theorem c3_line_aux : HasWinLine (postMove c3m PlayerX 0 2).board 3 PlayerX :=
  ⟨by decide, Or.inl ⟨0, by omega, fun j hj => by interval_cases j <;> decide⟩⟩

theorem c3_uniq_aux :
    ∀ s', HasWinLine (postMove c3m PlayerX 0 2).board 3 s' → s' = PlayerX := by
  rintro s' ⟨hne, ⟨i, hi, hrow⟩ | ⟨j, hj, hcol⟩ | hdiag | hanti⟩
  · interval_cases i
    · exact (hrow 0 (by omega)).symm.trans
        (show cell (postMove c3m PlayerX 0 2).board 0 0 = PlayerX by decide)
    · exact absurd ((hrow 2 (by omega)).symm.trans
        (show cell (postMove c3m PlayerX 0 2).board 1 2 = Empty by decide)) hne
    · exact absurd ((hrow 0 (by omega)).symm.trans
        (show cell (postMove c3m PlayerX 0 2).board 2 0 = Empty by decide)) hne
  · interval_cases j
    · exact absurd ((hcol 2 (by omega)).symm.trans
        (show cell (postMove c3m PlayerX 0 2).board 2 0 = Empty by decide)) hne
    · exact absurd ((hcol 2 (by omega)).symm.trans
        (show cell (postMove c3m PlayerX 0 2).board 2 1 = Empty by decide)) hne
    · exact absurd ((hcol 2 (by omega)).symm.trans
        (show cell (postMove c3m PlayerX 0 2).board 2 2 = Empty by decide)) hne
  · exact absurd ((hdiag 2 (by omega)).symm.trans
      (show cell (postMove c3m PlayerX 0 2).board 2 2 = Empty by decide)) hne
  · exact absurd ((hanti 2 (by omega)).symm.trans
      (show cell (postMove c3m PlayerX 0 2).board 2 0 = Empty by decide)) hne

/-- Closed witness for `c3_win_detection`: "alice" completes row 0 of
`c3m` at (0,2). -/
theorem c3_win_detection_witness :
    (handleMove c3m "alice" (some ⟨0, 2⟩)).1.winner = PlayerX ∧
    (handleMove c3m "alice" (some ⟨0, 2⟩)).1.state = GameStateFinished := by
  have h := c3_win_detection c3m "alice" ⟨0, 2⟩ PlayerX (by decide) (by decide)
    (by decide) (by decide) (by decide) (by decide) c3_line_aux c3_uniq_aux
  exact ⟨h.1, h.2.1⟩

/-- C4: when an accepted move fills the board (`moveCount` reaches
`size * size`) and the resulting board has no full line of any symbol,
the match finishes with no winner, and — counting both the reports of
the finishing `handleMove` call and those of the later
`MatchTerminate`, which adds none because the winner is empty — each
player receives exactly one outcome report, a draw. -/
theorem c4_draw (m : TTTMatch) (u : String) (d : MoveData) (s : String)
    (h1 : m.state = GameStatePlaying)
    (h2 : ¬(d.row < 0 ∨ d.row ≥ (m.size : Int) ∨ d.col < 0 ∨ d.col ≥ (m.size : Int)))
    (hl : lookup m.players u = some s) (h3 : s = m.turn)
    (h4 : cell m.board d.row.toNat d.col.toNat = Empty)
    (hw0 : m.winner = Empty)
    (hfull : m.moveCount + 1 = m.size * m.size)
    (hnoline : ∀ s', ¬ HasWinLine (postMove m s d.row.toNat d.col.toNat).board m.size s')
    (hsym : ∀ p ∈ m.players, p.2 ≠ Empty)
    (hkeys : (m.players.map Prod.fst).Nodup) :
    (handleMove m u (some d)).1.state = GameStateFinished ∧
    (handleMove m u (some d)).1.winner = Empty ∧
    ∀ uu ∈ m.players.map Prod.fst,
      reportsFor ((handleMove m u (some d)).2 ++
        (matchTerminate (handleMove m u (some d)).1).2) uu = [Outcome.draw] := by
  have hz : checkWinner (postMove m s d.row.toNat d.col.toNat) = Empty := by
    rcases checkWinner_cases (postMove m s d.row.toNat d.col.toNat) with h | h
    · exact h
    · exact absurd h (hnoline _)
  rw [handleMove_accepted m u d s h1 h2 hl h3 h4,
    moveResult_draw m s d.row.toNat d.col.toNat hz (by omega)]
  refine ⟨rfl, hw0, ?_⟩
  intro uu huu
  dsimp only
  have hterm : matchTerminate { postMove m s d.row.toNat d.col.toNat with
      state := GameStateFinished } =
      ({ postMove m s d.row.toNat d.col.toNat with state := GameStateFinished }, []) := by
    unfold matchTerminate
    rw [if_neg (fun hcond => hcond.2 hw0)]
  rw [hterm]
  dsimp only
  rw [List.append_nil, reportsFor_append]
  have hupd : updateLeaderboardEvents { postMove m s d.row.toNat d.col.toNat with
      state := GameStateFinished } =
      m.players.map (fun p => Event.report p.1 Outcome.draw) := by
    unfold updateLeaderboardEvents
    refine List.map_congr_left (fun p hp => ?_)
    have hwin : ({ postMove m s d.row.toNat d.col.toNat with
        state := GameStateFinished } : TTTMatch).winner = Empty := hw0
    rw [hwin]
    unfold outcomeFor
    rw [if_neg (fun he => hsym p hp he.symm), if_pos rfl]
  rw [hupd]
  obtain ⟨p, hp, hp1, heq⟩ := reportsFor_map_nodup m.players uu
    (fun _ => Outcome.draw) hkeys huu
  rw [heq, reportsFor_stateMsg]
  rfl

/-- A playing 3x3 match one move away from a full, line-free board:
final position X X O / O O X / X X O after X plays (2,1). -/
def c4m : TTTMatch :=
  { mode := GameModeClassic, size := 3,
    board := [[PlayerX, PlayerX, PlayerO], [PlayerO, PlayerO, PlayerX],
              [PlayerX, Empty, PlayerO]],
    turn := PlayerX, winner := Empty, state := GameStatePlaying,
    players := [("alice", PlayerX), ("bob", PlayerO)], moveCount := 8 }

theorem c4_noline_aux :
    ∀ s', ¬ HasWinLine (postMove c4m PlayerX 2 1).board 3 s' :=
  fun s' h =>
    checkWinner_ne_empty (postMove c4m PlayerX 2 1) s' (by decide) h (by decide)

/-- Closed witness for `c4_draw`: "alice" fills the last cell (2,1) of
`c4m`, producing a drawn full board. -/
theorem c4_draw_witness :
    (handleMove c4m "alice" (some ⟨2, 1⟩)).1.state = GameStateFinished ∧
    (handleMove c4m "alice" (some ⟨2, 1⟩)).1.winner = Empty := by
  have h := c4_draw c4m "alice" ⟨2, 1⟩ PlayerX (by decide) (by decide) (by decide)
    (by decide) (by decide) (by decide) (by decide) c4_noline_aux (by decide) (by decide)
  exact ⟨h.1, h.2.1⟩
